import Mathlib

/-!
# Verification of the CAN mapping engine (canmap.cpp / canhardware.cpp)

A shallow embedding of the message-mapping engine: the two fixed-capacity
message-entry tables (send and receive direction), the shared binding pool with
intrusive next-index chains, the bit packing/unpacking arithmetic, the SDO
request/reply handler, the hardware user-message list, and the flash-load guard.

Conventions of the embedding:
* machine integers are `Nat` (unsigned) or `Int` (signed) with explicit
  `% 2^w` reductions where the C code stores into a fixed-width field;
* `float` is modelled as `Rat`; the C conversion `int ival = val` (truncation
  toward zero) is `truncToInt`;
* the fixed-size arrays `canSendMap`, `canRecvMap`, `canPosMap` are total
  functions from `Nat`, updated pointwise; only indices below the capacity
  (respectively `MAX_ITEMS + 1` for the pool, which owns one sentinel slot past
  the pool) are ever touched by the operations;
* the C `for` loops over `next` links are bounded by explicit fuel; the fuel
  `MAX_ITEMS + 2` dominates the length of every acyclic chain, so on every
  state reachable through the API the fueled recursion computes exactly what
  the C loop computes;
* external collaborators (parameter store, CRC unit) are oracles: the
  parameter store is a total map `Nat → Rat` holding each parameter's floating
  view, together with a `ParamOracle` for its validation/translation entry
  points, and the CRC primitive is an arbitrary function argument.
-/

/-- `MAX_MESSAGES` from canmap.h (the header is not under src/).
Modelled from the spec: the doc comments of `AddSend`/`AddRecv` say
"Already 10 send messages defined", fixing the value at 10. -/
def MAX_MESSAGES : Nat := 10

/-- `MAX_ITEMS` from canmap.h (the header is not under src/).
Modelled from the spec: a build-time configured pool capacity; the `next` field
is a `uint8_t` with reserved value `0xff`, so any value below 255 is faithful.
Fixed at a representative 50; no claim depends on the exact value. -/
def MAX_ITEMS : Nat := 50

/-- `#define ITEM_UNSET 0xff`: the "pool slot free" sentinel of the `next` link. -/
def ITEM_UNSET : Nat := 0xff

/-- `MAX_USER_MESSAGES` from canhardware.h (the header is not under src/).
Modelled from the spec: the doc comment of `RegisterUserMessage` says
"false: already 10 messages registered", fixing the value at 10. -/
def MAX_USER_MESSAGES : Nat := 10

/-- Modelled from the spec: the error codes of canmap.h are not under src/.
`ProcessSDO` tests `result >= 0`, so every error code is a distinct negative
integer; the exact values are immaterial to the claims. -/
def CAN_ERR_INVALID_ID : Int := -1

/-- Modelled from the spec: see `CAN_ERR_INVALID_ID`. -/
def CAN_ERR_INVALID_OFS : Int := -2

/-- Modelled from the spec: see `CAN_ERR_INVALID_ID`. -/
def CAN_ERR_INVALID_LEN : Int := -3

/-- Modelled from the spec: see `CAN_ERR_INVALID_ID`. -/
def CAN_ERR_MAXMESSAGES : Int := -4

/-- Modelled from the spec: see `CAN_ERR_INVALID_ID`. -/
def CAN_ERR_MAXITEMS : Int := -5

def SDO_WRITE : Nat := 0x40
def SDO_READ : Nat := 0x22
def SDO_ABORT : Nat := 0x80
def SDO_WRITE_REPLY : Nat := 0x23
def SDO_READ_REPLY : Nat := 0x43
def SDO_ERR_INVIDX : Nat := 0x06020000
def SDO_ERR_RANGE : Nat := 0x06090030

/-- One binding of the pool (`CANPOS`): parameter reference, gain, additive
offset, bit offset, bit width, and the intrusive `next` link. -/
structure CANPOS where
  mapParam : Nat
  gain : Rat
  offset : Int
  offsetBits : Nat
  numBits : Nat
  next : Nat
deriving DecidableEq

/-- One message entry (`CANIDMAP`): identifier plus head index of its chain. -/
structure CANIDMAP where
  canId : Nat
  first : Nat
deriving DecidableEq

/-- Pointwise update of an array modelled as a total function. -/
def updFn {α : Type} (f : Nat → α) (i : Nat) (a : α) : Nat → α :=
  fun j => if j = i then a else f j

/-- C truncation of a float to `int`: `Rat` toward zero. -/
def truncToInt (q : Rat) : Int := Int.tdiv q.num (q.den : Int)

namespace CanMap

/-- The indices visited by `forEachCanMap` starting at entry `i`:
`for (c = m; (c - m) < MAX_MESSAGES && c->first != MAX_ITEMS; c++)`.
The loop stops at the first entry whose `first` equals `MAX_ITEMS`. -/
def canMapIndicesAux (m : Nat → CANIDMAP) : Nat → Nat → List Nat
  | _, 0 => []
  | i, fuel+1 =>
    if i < MAX_MESSAGES ∧ (m i).first ≠ MAX_ITEMS then i :: canMapIndicesAux m (i+1) fuel
    else []

/-- All entry indices visited by `forEachCanMap`. -/
def canMapIndices (m : Nat → CANIDMAP) : List Nat := canMapIndicesAux m 0 MAX_MESSAGES

/-- The pool indices visited by `forEachPosMap` starting at slot `i`:
`for (c = &canPosMap[first]; c->next != ITEM_UNSET; c = &canPosMap[c->next])`. -/
def chainIdxAux (pos : Nat → CANPOS) : Nat → Nat → List Nat
  | _, 0 => []
  | i, fuel+1 => if (pos i).next = ITEM_UNSET then [] else i :: chainIdxAux pos ((pos i).next) fuel

/-- All pool indices of the chain headed at `first`. -/
def chainIdx (pos : Nat → CANPOS) (first : Nat) : List Nat :=
  chainIdxAux pos first (MAX_ITEMS + 2)

/-- `CanMap::FindById`: first visited entry with the wanted identifier, as an
index (the C function returns a pointer or 0). -/
def FindById (m : Nat → CANIDMAP) (canId : Nat) : Option Nat :=
  (canMapIndices m).find? (fun i => (m i).canId == canId)

/-- The message count computed at the end of `Add` (`forEachCanMap` + `count++`). -/
def countCanMap (m : Nat → CANIDMAP) : Nat := (canMapIndices m).length

/-- The entry-allocation scan of `Add`:
`for (i = 0; i < MAX_MESSAGES; i++) if (canMap[i].first == MAX_ITEMS) break`. -/
def allocFreeEntryAux (m : Nat → CANIDMAP) : Nat → Nat → Option Nat
  | _, 0 => none
  | i, fuel+1 =>
    if i < MAX_MESSAGES then
      if (m i).first = MAX_ITEMS then some i else allocFreeEntryAux m (i+1) fuel
    else none

/-- First free message entry, if any. -/
def allocFreeEntry (m : Nat → CANIDMAP) : Option Nat := allocFreeEntryAux m 0 MAX_MESSAGES

/-- The pool free-slot scan of `Add`:
`for (freeIndex = 0; freeIndex < MAX_ITEMS && canPosMap[freeIndex].next != ITEM_UNSET; freeIndex++)`.
Returns the first slot whose `next` is `ITEM_UNSET`, or `MAX_ITEMS`. -/
def freePosScanAux (pos : Nat → CANPOS) : Nat → Nat → Nat
  | i, 0 => i
  | i, fuel+1 =>
    if i < MAX_ITEMS ∧ (pos i).next ≠ ITEM_UNSET then freePosScanAux pos (i+1) fuel else i

/-- Entry point of the free-slot scan. -/
def freePosScan (pos : Nat → CANPOS) : Nat := freePosScanAux pos 0 MAX_ITEMS

/-- The chain-tail scan of `Add`:
`for (precedingIndex = first; precedingIndex != MAX_ITEMS; precedingIndex = canPosMap[precedingIndex].next) precedingItem = ...;`. -/
def chainTailAux (pos : Nat → CANPOS) : Nat → Option Nat → Nat → Option Nat
  | _, acc, 0 => acc
  | i, acc, fuel+1 => if i = MAX_ITEMS then acc else chainTailAux pos ((pos i).next) (some i) fuel

/-- Tail step of `Add`: write the new binding into the free slot, then link it
as the chain head (no predecessor) or behind the predecessor. -/
def AddLink (m1 : Nat → CANIDMAP) (pos : Nat → CANPOS) (e param ofs len : Nat)
    (gain : Rat) (off : Int) (freeIndex : Nat) : Int × (Nat → CANIDMAP) × (Nat → CANPOS) :=
  let pos1 := updFn pos freeIndex ⟨param, gain, off, ofs, len, MAX_ITEMS⟩
  match chainTailAux pos ((m1 e).first) none (MAX_ITEMS + 2) with
  | none =>
    let m2 := updFn m1 e { m1 e with first := freeIndex }
    ((countCanMap m2 : Int), m2, pos1)
  | some p =>
    let pos2 := updFn pos1 p { pos1 p with next := freeIndex }
    ((countCanMap m1 : Int), m1, pos2)

/-- Middle of `Add`: the pool free-slot scan, failing with `CAN_ERR_MAXITEMS`
when the pool is exhausted. -/
def AddToEntry (m1 : Nat → CANIDMAP) (pos : Nat → CANPOS) (e param ofs len : Nat)
    (gain : Rat) (off : Int) : Int × (Nat → CANIDMAP) × (Nat → CANPOS) :=
  if freePosScan pos = MAX_ITEMS then (CAN_ERR_MAXITEMS, m1, pos)
  else AddLink m1 pos e param ofs len gain off (freePosScan pos)

/-- `Add` after validation: find the entry for `canId` or allocate a free one
(writing its `canId` field before the pool scan, as the source does). -/
def AddValidated (m : Nat → CANIDMAP) (pos : Nat → CANPOS) (param canId ofs len : Nat)
    (gain : Rat) (off : Int) : Int × (Nat → CANIDMAP) × (Nat → CANPOS) :=
  match FindById m canId with
  | some e => AddToEntry m pos e param ofs len gain off
  | none =>
    match allocFreeEntry m with
    | none => (CAN_ERR_MAXMESSAGES, m, pos)
    | some i => AddToEntry (updFn m i { m i with canId := canId }) pos i param ofs len gain off

/-- `CanMap::Add` on one direction's table and the shared pool. -/
def Add (m : Nat → CANIDMAP) (pos : Nat → CANPOS) (param canId ofs len : Nat)
    (gain : Rat) (off : Int) : Int × (Nat → CANIDMAP) × (Nat → CANPOS) :=
  if canId > 0x1fffffff then (CAN_ERR_INVALID_ID, m, pos)
  else if ofs > 63 then (CAN_ERR_INVALID_OFS, m, pos)
  else if len > 32 then (CAN_ERR_INVALID_LEN, m, pos)
  else AddValidated m pos param canId ofs len gain off

/-- Inner loop of `RemoveFromMap` over one chain.  The loop variable `cur`
walks the `next` links, `last?` is the `lastPosMap` pointer of the source
(none while still 0); a matching binding is unlinked by rewriting the
predecessor's link or the entry head.  The step reads `cur`'s link from the
state after the body, exactly as the pointer-based C loop does. -/
def removeChainLoop (param e : Nat) :
    Nat → Option Nat → (Nat → CANIDMAP) → (Nat → CANPOS) → Nat →
    (Nat → CANIDMAP) × (Nat → CANPOS)
  | _, _, m, pos, 0 => (m, pos)
  | cur, last?, m, pos, fuel+1 =>
    if (pos cur).next = ITEM_UNSET then (m, pos)
    else
      let step :=
        if (pos cur).mapParam = param then
          match last? with
          | some l => (m, updFn pos l { pos l with next := (pos cur).next })
          | none => (updFn m e { m e with first := (pos cur).next }, pos)
        else (m, pos)
      removeChainLoop param e ((step.2 cur).next) (some cur) step.1 step.2 fuel

/-- Outer loop of `RemoveFromMap` (`forEachCanMap`), re-checking the loop
condition against the current state after each entry. -/
def removeFromMapAux (param : Nat) :
    Nat → (Nat → CANIDMAP) → (Nat → CANPOS) → Nat → (Nat → CANIDMAP) × (Nat → CANPOS)
  | _, m, pos, 0 => (m, pos)
  | i, m, pos, fuel+1 =>
    if i < MAX_MESSAGES ∧ (m i).first ≠ MAX_ITEMS then
      let r := removeChainLoop param i ((m i).first) none m pos (MAX_ITEMS + 2)
      removeFromMapAux param (i+1) r.1 r.2 fuel
    else (m, pos)

/-- `CanMap::RemoveFromMap`.  The source declares `int removed = 0` and
returns it without ever incrementing it; the embedding keeps that behaviour. -/
def RemoveFromMap (m : Nat → CANIDMAP) (pos : Nat → CANPOS) (param : Nat) :
    Int × (Nat → CANIDMAP) × (Nat → CANPOS) :=
  let removed : Int := 0
  let r := removeFromMapAux param 0 m pos MAX_MESSAGES
  (removed, r.1, r.2)

end CanMap

/-- State of `CanHardware`: the registered user message identifiers
(`userIds[0 .. nextUserMessageIndex)` as a list). -/
structure HwState where
  userIds : List Nat
deriving DecidableEq

namespace CanHardware

/-- `CanHardware::RegisterUserMessage`: reject when full or already present,
otherwise append and reconfigure the acceptance filter (a hardware side effect
outside the model). -/
def RegisterUserMessage (hw : HwState) (canId : Nat) : Bool × HwState :=
  if hw.userIds.length < MAX_USER_MESSAGES then
    if canId ∈ hw.userIds then (false, hw)
    else (true, { userIds := hw.userIds ++ [canId] })
  else (false, hw)

end CanHardware

/-- The mapping-table state of one `CanMap` object: both directions' entry
tables and the shared binding pool (`MAX_ITEMS + 1` slots; the slot at index
`MAX_ITEMS` is the permanent end-of-chain sentinel). -/
structure MapState where
  sendMap : Nat → CANIDMAP
  recvMap : Nat → CANIDMAP
  pos : Nat → CANPOS

/-- Full system state: mapping table, the parameter store's floating view,
the save-in-progress flag, the node id, and the hardware user-message list. -/
structure SysState where
  map : MapState
  params : Nat → Rat
  isSaving : Bool
  nodeId : Nat
  hw : HwState

/-- The external parameter store's remaining entry points, as oracles:
`PARAM_LAST`, `NumFromId`, the validation outcome of `Param::Set`, the value it
stores in floating view, and the raw value `Param::Get` returns. -/
structure ParamOracle where
  paramLast : Nat
  numFromId : Nat → Nat
  setOk : Nat → Nat → Bool
  setVal : Nat → Nat → Rat
  getRaw : Nat → Nat

namespace CanMap

/-- `CanMap::ClearMap` result on an entry table: every `first` back at the
`MAX_ITEMS` sentinel. -/
def ClearedIdMap : Nat → CANIDMAP := fun _ => { canId := 0, first := MAX_ITEMS }

/-- `CanMap::ClearMap` result on the pool: every `next` at `ITEM_UNSET`. -/
def ClearedPos : Nat → CANPOS :=
  fun _ => { mapParam := 0, gain := 0, offset := 0, offsetBits := 0, numBits := 0, next := ITEM_UNSET }

/-- The table state after the constructor's `ClearMap` calls (blank device). -/
def initMapState : MapState := ⟨ClearedIdMap, ClearedIdMap, ClearedPos⟩

/-- A freshly constructed `CanMap` on a blank device: cleared tables,
`nodeId = 1`, not saving, no user messages registered. -/
def initSys (params0 : Nat → Rat) : SysState :=
  { map := initMapState, params := params0, isSaving := false, nodeId := 1, hw := ⟨[]⟩ }

/-- `CanMap::Remove`: sweep both directions, summing the two (never
incremented) counters. -/
def Remove (st : MapState) (param : Nat) : Int × MapState :=
  let rs := RemoveFromMap st.sendMap st.pos param
  let rr := RemoveFromMap st.recvMap rs.2.2 param
  (rs.1 + rr.1, { sendMap := rs.2.1, recvMap := rr.2.1, pos := rr.2.2 })

/-- `CanMap::Remove` lifted to the system state. -/
def RemoveSys (s : SysState) (param : Nat) : Int × SysState :=
  ((Remove s.map param).1, { s with map := (Remove s.map param).2 })

/-- `CanMap::AddSend` lifted to the system state. -/
def AddSendSys (s : SysState) (param canId ofs len : Nat) (gain : Rat) (off : Int) :
    Int × SysState :=
  ((Add s.map.sendMap s.map.pos param canId ofs len gain off).1,
   { s with map := { s.map with
       sendMap := (Add s.map.sendMap s.map.pos param canId ofs len gain off).2.1,
       pos := (Add s.map.sendMap s.map.pos param canId ofs len gain off).2.2 } })

/-- `CanMap::AddRecv`: the receive-direction `Add`, followed unconditionally by
`RegisterUserMessage(canId)` on the hardware; the `Add` result is returned
regardless of the registration outcome. -/
def AddRecvSys (s : SysState) (param canId ofs len : Nat) (gain : Rat) (off : Int) :
    Int × SysState :=
  let r := Add s.map.recvMap s.map.pos param canId ofs len gain off
  (r.1,
   { s with
       map := { s.map with recvMap := r.2.1, pos := r.2.2 },
       hw := (CanHardware.RegisterUserMessage s.hw canId).2 })

/-- Chain search of `FindMap`/`forEachPosMap`: first chain slot whose
`mapParam` matches. -/
def findInChain (pos : Nat → CANPOS) (param : Nat) (idxs : List Nat) : Option Nat :=
  idxs.find? (fun i => (pos i).mapParam == param)

/-- One direction of `CanMap::FindMap`: first match in table order, then chain
order, returning the entry's identifier and the binding. -/
def findMapEntries (m : Nat → CANIDMAP) (pos : Nat → CANPOS) (param : Nat) :
    Option (Nat × CANPOS) :=
  ((canMapIndices m).filterMap (fun e =>
    (findInChain pos param (chainIdx pos ((m e).first))).map (fun i => ((m e).canId, pos i)))).head?

/-- `CanMap::FindMap`: send direction first, then receive (the `rx` flag of the
source is the `Bool` component). -/
def FindMap (st : MapState) (param : Nat) : Option (Nat × CANPOS × Bool) :=
  match findMapEntries st.sendMap st.pos param with
  | some x => some (x.1, x.2, false)
  | none => (findMapEntries st.recvMap st.pos param).map (fun x => (x.1, x.2, true))

/-- The `SendAll` body for one binding: `val = GetFloat(param); val *= gain;
val += offset; int ival = val; ival &= (1 << numBits) - 1;` then OR into the
high word when `offsetBits > 31`, else the low word.  Storing into the
`uint32_t` word reduces the shifted value `% 2^32`. -/
def packStep (params : Nat → Rat) (b : CANPOS) (d : Nat × Nat) : Nat × Nat :=
  let val := params b.mapParam * b.gain + (b.offset : Rat)
  let ival := ((truncToInt val).emod (2 ^ b.numBits)).toNat
  if b.offsetBits > 31 then (d.1, d.2 ||| ((ival <<< (b.offsetBits - 32)) % 2 ^ 32))
  else (d.1 ||| ((ival <<< b.offsetBits) % 2 ^ 32), d.2)

/-- Inner loop of `SendAll` over one chain; `isSaving` is checked at the top of
each body and aborts the whole sweep (`none`). -/
def sendChain (params : Nat → Rat) (sv : Bool) (pos : Nat → CANPOS) :
    Nat → Nat × Nat → Nat → Option (Nat × Nat)
  | _, d, 0 => some d
  | cur, d, fuel+1 =>
    if (pos cur).next = ITEM_UNSET then some d
    else if sv then none
    else sendChain params sv pos ((pos cur).next) (packStep params (pos cur) d) fuel

/-- Outer loop of `SendAll` over the send table, collecting the transmitted
frames `(canId, low word, high word)`. -/
def SendAllAux (params : Nat → Rat) (sv : Bool) (m : Nat → CANIDMAP) (pos : Nat → CANPOS) :
    Nat → Nat → List (Nat × Nat × Nat)
  | _, 0 => []
  | i, fuel+1 =>
    if i < MAX_MESSAGES ∧ (m i).first ≠ MAX_ITEMS then
      match sendChain params sv pos ((m i).first) (0, 0) (MAX_ITEMS + 2) with
      | none => []
      | some d => ((m i).canId, d.1, d.2) :: SendAllAux params sv m pos (i+1) fuel
    else []

/-- `CanMap::SendAll`: the periodic send sweep. -/
def SendAll (params : Nat → Rat) (sv : Bool) (m : Nat → CANIDMAP) (pos : Nat → CANPOS) :
    List (Nat × Nat × Nat) :=
  SendAllAux params sv m pos 0 MAX_MESSAGES

/-- The `HandleRx` body for one receive binding: extract the field from the
selected word, add `offset`, multiply by `gain`.  (`(data >> ofs) & ((1 << numBits) - 1)`.) -/
def unpackVal (b : CANPOS) (d0 d1 : Nat) : Rat :=
  let raw : Nat :=
    if b.offsetBits > 31 then (d1 >>> (b.offsetBits - 32)) &&& (2 ^ b.numBits - 1)
    else (d0 >>> b.offsetBits) &&& (2 ^ b.numBits - 1)
  ((raw : Rat) + (b.offset : Rat)) * b.gain

/-- The mapped-message part of `HandleRx`: write every binding of the matched
entry's chain into the parameter store.  `Param::Set`/`Param::SetFloat` are the
external store's two write paths; in the floating view both store the scaled
value. -/
def handleMapped (params : Nat → Rat) (pos : Nat → CANPOS) (first d0 d1 : Nat) : Nat → Rat :=
  (chainIdx pos first).foldl
    (fun ps i => updFn ps ((pos i).mapParam) (unpackVal (pos i) d0 d1)) params

/-- The `CAN_SDO` overlay of the two payload words: byte 0 command, bytes 1-2
index (little endian), byte 3 sub-index, second word data. -/
structure SdoFrame where
  cmd : Nat
  index : Nat
  subIndex : Nat
  data : Nat
deriving DecidableEq

/-- Decode the packed request (`CAN_SDO*` cast of `data[2]`). -/
def decodeSdo (d0 d1 : Nat) : SdoFrame :=
  { cmd := d0 % 256, index := d0 / 256 % 65536, subIndex := d0 / 16777216 % 256,
    data := d1 % 4294967296 }

/-- Encode the (reused) frame back into two payload words. -/
def encodeSdo (f : SdoFrame) : Nat × Nat :=
  (f.cmd + f.index * 256 + f.subIndex * 16777216, f.data)

/-- The mapping-configuration write branch of `ProcessSDO`: decode bit offset,
length and gain from the data word (the `s32fp` raw value converts to the
`float` gain argument), pick the direction from index bit `0x4000`, and call
the add operation. -/
def sdoMapWrite (s : SysState) (f : SdoFrame) : SdoFrame × SysState :=
  let ofs := f.data % 256
  let len := f.data / 256 % 256
  let gain : Rat := ((f.data / 65536 : Nat) : Rat)
  let r :=
    if f.index &&& 0x4000 = 0x4000 then AddRecvSys s f.subIndex (f.index &&& 0x7FF) ofs len gain 0
    else AddSendSys s f.subIndex (f.index &&& 0x7FF) ofs len gain 0
  if 0 ≤ r.1 then ({ f with cmd := SDO_WRITE_REPLY }, r.2)
  else ({ f with cmd := SDO_ABORT, data := SDO_ERR_RANGE }, r.2)

/-- The branching of `ProcessSDO` on the decoded request, returning the frame
to reply with (the request mutated in place) and the successor state. -/
def sdoStep (o : ParamOracle) (s : SysState) (f : SdoFrame) : SdoFrame × SysState :=
  if 0x2000 ≤ f.index ∧ f.index ≤ 0x2001 ∧ f.subIndex < o.paramLast then
    let paramIdx := if f.index = 0x2001 then o.numFromId f.subIndex else f.subIndex
    if f.cmd = SDO_WRITE then
      if o.setOk paramIdx f.data then
        ({ f with cmd := SDO_WRITE_REPLY },
         { s with params := updFn s.params paramIdx (o.setVal paramIdx f.data) })
      else ({ f with cmd := SDO_ABORT, data := SDO_ERR_RANGE }, s)
    else if f.cmd = SDO_READ then
      ({ f with cmd := SDO_READ_REPLY, data := o.getRaw paramIdx }, s)
    else (f, s)
  else if 0x3000 ≤ f.index ∧ f.index < 0x4800 ∧ f.subIndex < o.paramLast then
    if f.cmd = SDO_WRITE then sdoMapWrite s f
    else (f, s)
  else ({ f with cmd := SDO_ABORT, data := SDO_ERR_INVIDX }, s)

/-- `CanMap::ProcessSDO`: every branch falls through to the single
`Send(0x580 + nodeId, data)` of the reply frame. -/
def ProcessSDO (o : ParamOracle) (s : SysState) (d0 d1 : Nat) :
    SysState × List (Nat × Nat × Nat) :=
  ((sdoStep o s (decodeSdo d0 d1)).2,
   [(0x580 + s.nodeId,
     (encodeSdo (sdoStep o s (decodeSdo d0 d1)).1).1,
     (encodeSdo (sdoStep o s (decodeSdo d0 d1)).1).2)])

/-- `CanMap::HandleRx`: the SDO identifier is processed before (and regardless
of) the `isSaving` check; mapped messages are handled only when not saving and
an entry for the identifier is found.  Returns the handled flag, the new state
and the transmitted frames. -/
def HandleRx (o : ParamOracle) (s : SysState) (canId d0 d1 : Nat) :
    Bool × SysState × List (Nat × Nat × Nat) :=
  if canId = 0x600 + s.nodeId then
    (true, (ProcessSDO o s d0 d1).1, (ProcessSDO o s d0 d1).2)
  else if s.isSaving then (false, s, [])
  else
    match FindById s.map.recvMap canId with
    | some e =>
      (true, { s with params := handleMapped s.params s.map.pos ((s.map.recvMap e).first) d0 d1 }, [])
    | none => (false, s, [])

/-- The stored flash image: the three regions written by `Save` (the image is a
word-for-word copy of the table structs) plus the trailing checksum word. -/
structure FlashImage where
  sendMap : Nat → CANIDMAP
  recvMap : Nat → CANIDMAP
  pos : Nat → CANPOS
  storedCrc : Nat

/-- One chain of `ReplaceParamUidByEnum`: rewrite each visited binding's
parameter reference through `Param::NumFromId`. -/
def replaceChain (numFromId : Nat → Nat) (pos : Nat → CANPOS) (idxs : List Nat) :
    Nat → CANPOS :=
  idxs.foldl (fun p i => updFn p i { p i with mapParam := numFromId ((p i).mapParam) }) pos

/-- `CanMap::ReplaceParamUidByEnum` over one direction's table. -/
def ReplaceParamUidByEnum (numFromId : Nat → Nat) (m : Nat → CANIDMAP) (pos : Nat → CANPOS) :
    Nat → CANPOS :=
  (canMapIndices m).foldl (fun p e => replaceChain numFromId p (chainIdx p ((m e).first))) pos

/-- `CanMap::LoadFromFlash`: recompute the checksum over the three stored
regions (the hardware CRC unit is the oracle `crc`); only on a match copy the
regions into the runtime tables and remap the parameter references.  A
mismatch leaves the runtime tables untouched and returns 0. -/
def LoadFromFlash (numFromId : Nat → Nat)
    (crc : (Nat → CANIDMAP) → (Nat → CANIDMAP) → (Nat → CANPOS) → Nat)
    (img : FlashImage) (st : MapState) : Int × MapState :=
  if img.storedCrc = crc img.sendMap img.recvMap img.pos then
    let pos1 := ReplaceParamUidByEnum numFromId img.sendMap img.pos
    let pos2 := ReplaceParamUidByEnum numFromId img.recvMap pos1
    (1, { sendMap := img.sendMap, recvMap := img.recvMap, pos := pos2 })
  else (0, st)

/-- The observable content of one direction: the entries `forEachCanMap`
visits, each with its identifier and the bindings of its chain.  `FindMap`,
`IterateCanMap`, `SendAll`, and the receive dispatch read the table only
through this view. -/
def observeMap (m : Nat → CANIDMAP) (pos : Nat → CANPOS) : List (Nat × List CANPOS) :=
  (canMapIndices m).map (fun e => ((m e).canId, (chainIdx pos ((m e).first)).map pos))

end CanMap

/-- The per-binding field value as the source computes it: parameter value
multiplied by `gain`, then `offset` added, truncated toward zero, masked to
`numBits` bits. -/
def amendedFieldVal (params : Nat → Rat) (b : CANPOS) : Nat :=
  ((truncToInt (params b.mapParam * b.gain + (b.offset : Rat))).emod (2 ^ b.numBits)).toNat

/-- The per-binding field value as the spec sentence words it: `offset` added
to the parameter value first, the sum then multiplied by `gain`, truncated,
masked. -/
def claimedFieldVal (params : Nat → Rat) (b : CANPOS) : Nat :=
  ((truncToInt ((params b.mapParam + (b.offset : Rat)) * b.gain)).emod (2 ^ b.numBits)).toNat

/-- OR a field value into the word selected by the binding's bit offset
(high word when the offset is 32 or more). -/
def orField (d : Nat × Nat) (b : CANPOS) (v : Nat) : Nat × Nat :=
  if b.offsetBits > 31 then (d.1, d.2 ||| ((v <<< (b.offsetBits - 32)) % 2 ^ 32))
  else (d.1 ||| ((v <<< b.offsetBits) % 2 ^ 32), d.2)

/-- A whole outbound frame built by folding the per-binding field computation
over a chain's bindings. -/
def amendedPackFrame (params : Nat → Rat) (bs : List CANPOS) : Nat × Nat :=
  bs.foldl (fun d b => orField d b (amendedFieldVal params b)) (0, 0)

/-- All-zero parameter store for the concrete scenarios. -/
def pZero : Nat → Rat := fun _ => 0

/-- A concrete parameter-store oracle for the scenarios: 16 parameters,
identity id translation, every write accepted. -/
def oT : ParamOracle :=
  { paramLast := 16, numFromId := fun i => i, setOk := fun _ _ => true,
    setVal := fun _ v => (v : Rat), getRaw := fun _ => 0 }

/-- One send binding for parameter 7 on identifier 0x100. -/
def sC1 : SysState := (CanMap.AddSendSys (CanMap.initSys pZero) 7 0x100 0 8 1 0).2

/-- A second send binding for parameter 7 on the same identifier. -/
def sC2 : SysState := (CanMap.AddSendSys sC1 7 0x100 8 8 1 0).2

/-- The table after removing parameter 7 from `sC2`. -/
def rC2 : MapState := (CanMap.Remove sC2.map 7).2

/-- Receive bindings: parameter 5 on 0x100 (entry 0), parameter 6 on 0x200
(entry 1). -/
def sC3 : SysState :=
  (CanMap.AddRecvSys (CanMap.AddRecvSys (CanMap.initSys pZero) 5 0x100 0 8 1 0).2
    6 0x200 0 8 1 0).2

/-- `sC3` after removing parameter 5: receive entry 0 has an empty chain,
entry 1 is still populated. -/
def rC3 : SysState := (CanMap.RemoveSys sC3 5).2

/-- Parameter store with parameter 2 reading 5. -/
def pC4 : Nat → Rat := fun i => if i = 2 then 5 else 0

/-- One send binding for parameter 2: gain 2, offset 3, width 8, bit offset 0. -/
def sC4 : SysState := (CanMap.AddSendSys (CanMap.initSys pC4) 2 0x100 0 8 2 3).2

/-- The binding stored at pool slot 0 of `sC4`. -/
def bC4 : CANPOS := ⟨2, 2, 3, 0, 8, MAX_ITEMS⟩

/-- One receive binding for parameter 3 on identifier 0x201, width 8, gain 1. -/
def sC6 : SysState := (CanMap.AddRecvSys (CanMap.initSys pZero) 3 0x201 0 8 1 0).2

/-- The binding stored at pool slot 0 of `sC6`. -/
def bC6 : CANPOS := ⟨3, 1, 0, 0, 8, MAX_ITEMS⟩

/-- `sC6` after delivering the frame `0x201` with low word `0xAB`. -/
def sC6r : SysState := (CanMap.HandleRx oT sC6 0x201 0xAB 0).2.1

/-- `sC6r` after removing parameter 3. -/
def sC6b : SysState := (CanMap.RemoveSys sC6r 3).2

/-- An empty system with the save-in-progress flag set. -/
def sBusy : SysState := { CanMap.initSys pZero with isSaving := true }

/-- SDO request word 0: write command, index 0x4201 (receive mapping for
identifier 0x201), sub-index 2. -/
def dC9a : Nat := 0x40 + 0x4201 * 256 + 2 * 16777216

/-- SDO request word 1: bit offset 0, length 8, gain 1. -/
def dC9b : Nat := 8 * 256 + 1 * 65536

/-- A flash image whose trailing checksum word cannot match the oracle used in
the witness. -/
def imgBad : CanMap.FlashImage :=
  { sendMap := CanMap.ClearedIdMap, recvMap := CanMap.ClearedIdMap,
    pos := CanMap.ClearedPos, storedCrc := 1 }

namespace CanMap

lemma mem_canMapIndicesAux_no_free (m : Nat → CANIDMAP) :
    ∀ (fuel i j : Nat), j ∈ canMapIndicesAux m i fuel →
      ∀ k, i ≤ k → k ≤ j → (m k).first ≠ MAX_ITEMS := by
  intro fuel
  induction fuel with
  | zero => intro i j h; simp [canMapIndicesAux] at h
  | succ f ih =>
    intro i j h k hik hkj
    simp only [canMapIndicesAux] at h
    split at h
    · rename_i hcond
      rcases List.mem_cons.mp h with hji | hrest
      · have hki : k = i := by omega
        subst hki; exact hcond.2
      · rcases Nat.eq_or_lt_of_le hik with hki | hlt
        · subst hki; exact hcond.2
        · exact ih (i+1) j hrest k hlt hkj
    · simp at h

lemma mem_canMapIndices_first_ne (m : Nat → CANIDMAP) (j : Nat)
    (h : j ∈ canMapIndices m) : (m j).first ≠ MAX_ITEMS :=
  mem_canMapIndicesAux_no_free m MAX_MESSAGES 0 j h j (Nat.zero_le j) le_rfl

lemma canMapIndicesAux_congr_first (m1 m2 : Nat → CANIDMAP)
    (h : ∀ k, (m1 k).first = (m2 k).first) :
    ∀ (fuel i : Nat), canMapIndicesAux m1 i fuel = canMapIndicesAux m2 i fuel := by
  intro fuel
  induction fuel with
  | zero => intro i; simp [canMapIndicesAux]
  | succ f ih =>
    intro i
    simp only [canMapIndicesAux, h i, ih (i+1)]

lemma allocFreeEntryAux_some_free (m : Nat → CANIDMAP) :
    ∀ (fuel i k : Nat), allocFreeEntryAux m i fuel = some k → (m k).first = MAX_ITEMS := by
  intro fuel
  induction fuel with
  | zero => intro i k h; simp [allocFreeEntryAux] at h
  | succ f ih =>
    intro i k h
    simp only [allocFreeEntryAux] at h
    split at h
    · split at h
      · rename_i hfree
        cases h; exact hfree
      · exact ih (i+1) k h
    · simp at h

lemma allocFreeEntryAux_finds (m : Nat → CANIDMAP) :
    ∀ (fuel i t : Nat), i ≤ t → t < i + fuel → t < MAX_MESSAGES →
      (m t).first = MAX_ITEMS →
      ∃ k, allocFreeEntryAux m i fuel = some k ∧ k ≤ t := by
  intro fuel
  induction fuel with
  | zero => intro i t h1 h2; omega
  | succ f ih =>
    intro i t hit hfuel htM hfree
    simp only [allocFreeEntryAux]
    rw [if_pos (by omega)]
    by_cases hi : (m i).first = MAX_ITEMS
    · exact ⟨i, by rw [if_pos hi], hit⟩
    · have hne : i ≠ t := fun he => hi (he ▸ hfree)
      obtain ⟨k, hk, hkt⟩ := ih (i+1) t (by omega) (by omega) htM hfree
      exact ⟨k, by rw [if_neg hi]; exact hk, hkt⟩

lemma AddLink_fst_nonneg (m1 : Nat → CANIDMAP) (pos : Nat → CANPOS)
    (e param ofs len : Nat) (gain : Rat) (off : Int) (fi : Nat) :
    0 ≤ (AddLink m1 pos e param ofs len gain off fi).1 := by
  unfold AddLink
  split
  · exact Int.natCast_nonneg _
  · exact Int.natCast_nonneg _

lemma observeMap_updFn_free_entry (m : Nat → CANIDMAP) (pos : Nat → CANPOS)
    (i : Nat) (c : CANIDMAP) (hfree : (m i).first = MAX_ITEMS)
    (hc : c.first = MAX_ITEMS) :
    observeMap (updFn m i c) pos = observeMap m pos := by
  have hfi : ∀ k, ((updFn m i c) k).first = (m k).first := by
    intro k
    unfold updFn
    split
    · rename_i hk; subst hk; rw [hc, hfree]
    · rfl
  unfold observeMap
  rw [show canMapIndices (updFn m i c) = canMapIndices m from
    canMapIndicesAux_congr_first _ _ hfi MAX_MESSAGES 0]
  refine List.map_congr_left ?_
  intro e he
  have hne : e ≠ i := by
    intro hei
    exact mem_canMapIndices_first_ne m e he (hei ▸ hfree)
  rw [show updFn m i c e = m e from if_neg hne]

lemma sendChain_false_eq (params : Nat → Rat) (pos : Nat → CANPOS) :
    ∀ (fuel cur : Nat) (d : Nat × Nat),
      sendChain params false pos cur d fuel =
        some ((chainIdxAux pos cur fuel).foldl (fun x j => packStep params (pos j) x) d) := by
  intro fuel
  induction fuel with
  | zero => intro cur d; simp [sendChain, chainIdxAux]
  | succ f ih =>
    intro cur d
    simp only [sendChain, chainIdxAux]
    split
    · simp [List.foldl]
    · simp only [Bool.false_eq_true, if_false, ih, List.foldl]

lemma SendAllAux_false_eq (params : Nat → Rat) (m : Nat → CANIDMAP) (pos : Nat → CANPOS) :
    ∀ (fuel i : Nat),
      SendAllAux params false m pos i fuel =
        (canMapIndicesAux m i fuel).map (fun e =>
          ((m e).canId,
           (chainIdx pos ((m e).first)).foldl (fun x j => packStep params (pos j) x) (0, 0))) := by
  intro fuel
  induction fuel with
  | zero => intro i; simp [SendAllAux, canMapIndicesAux]
  | succ f ih =>
    intro i
    simp only [SendAllAux, canMapIndicesAux]
    split
    · rw [sendChain_false_eq params pos]
      simp only [List.map, ih (i+1)]
      rfl
    · simp

lemma packStep_eq_orField (params : Nat → Rat) (b : CANPOS) (d : Nat × Nat) :
    packStep params b d = orField d b (amendedFieldVal params b) := rfl

lemma SendAll_eq_amendedPackFrame (params : Nat → Rat) (m : Nat → CANIDMAP)
    (pos : Nat → CANPOS) :
    SendAll params false m pos =
      (canMapIndices m).map (fun e =>
        ((m e).canId, amendedPackFrame params ((chainIdx pos ((m e).first)).map pos))) := by
  rw [SendAll, SendAllAux_false_eq]
  refine List.map_congr_left ?_
  intro e _
  refine congrArg (Prod.mk (m e).canId) ?_
  rw [amendedPackFrame, List.foldl_map]
  rfl

end CanMap

/-- Claim C1: `Remove(p)` is specified to return the number of bindings that
referenced `p` and were removed.  The source initializes `removed = 0` in
`RemoveFromMap` and never increments it: with exactly one binding for
parameter 7 present (and actually unlinked by the call, as the entry's head
returning to the sentinel shows), `Remove` still returns 0 instead of 1. -/
theorem remove_count_is_always_zero :
    (sC1.map.sendMap 0).first = 0 ∧
    (sC1.map.pos 0).mapParam = 7 ∧
    (CanMap.Remove sC1.map 7).1 = 0 ∧
    ((CanMap.Remove sC1.map 7).2.sendMap 0).first = MAX_ITEMS := by decide

/-- Claim C2: after `Remove(p)` the source never resets a removed slot's link
to the free sentinel, and with two consecutive matching bindings it fails to
unlink the second one: starting empty, adding parameter 7 twice on identifier
0x100 and then removing 7 leaves `FindMap(7)` still succeeding, both pool
slots non-free, and the free-slot scan of a subsequent `Add` skipping them. -/
theorem remove_leaves_slot_and_binding :
    (CanMap.FindMap rC2 7).isSome = true ∧
    (rC2.pos 0).next ≠ ITEM_UNSET ∧
    (rC2.pos 1).next ≠ ITEM_UNSET ∧
    CanMap.freePosScan rC2.pos = 2 := by decide

/-- Claim C3 (counterexample): with receive entry 0 emptied by a removal and
entry 1 still populated (identifier 0x200, one binding for parameter 6), the
entry iteration stops at the empty entry instead of skipping it: the visited
index list is empty, a frame for 0x200 is not handled and `FindMap` does not
see parameter 6, contradicting the claim that every populated entry stored
after the empty one is still visited. -/
theorem iteration_stops_at_empty_entry_cex :
    (rC3.map.recvMap 0).first = MAX_ITEMS ∧
    (rC3.map.recvMap 1).canId = 0x200 ∧
    (rC3.map.recvMap 1).first = 1 ∧
    (rC3.map.pos 1).mapParam = 6 ∧
    (CanMap.HandleRx oT rC3 0x200 5 0).1 = false ∧
    (CanMap.FindMap rC3.map 6).isSome = false ∧
    CanMap.canMapIndices rC3.map.recvMap = [] := by decide

/-- Claim C3 (amended): when entry `i` of a direction's table has an empty
chain, the `forEachCanMap` iteration underlying `FindMap`, `IterateCanMap`,
`SendAll` and `FindById` never visits any entry at or after `i`; the empty
entry itself is reusable by a future add — the entry-allocation scan succeeds
and selects a free slot no later than `i`. -/
theorem iteration_stops_at_empty_entry (m : Nat → CANIDMAP) (i j : Nat)
    (hi : i < MAX_MESSAGES) (hfree : (m i).first = MAX_ITEMS) (hij : i ≤ j) :
    j ∉ CanMap.canMapIndices m ∧
    CanMap.allocFreeEntry m ≠ none ∧
    (CanMap.allocFreeEntry m).getD MAX_MESSAGES ≤ i := by
  obtain ⟨k, hk, hki⟩ :=
    CanMap.allocFreeEntryAux_finds m MAX_MESSAGES 0 i (Nat.zero_le i) (by omega) hi hfree
  refine ⟨?_, ?_, ?_⟩
  · intro hmem
    exact CanMap.mem_canMapIndicesAux_no_free m MAX_MESSAGES 0 j hmem i (Nat.zero_le i) hij hfree
  · rw [CanMap.allocFreeEntry, hk]
    simp
  · rw [CanMap.allocFreeEntry, hk]
    simpa using hki

/-- Claim C3 (witness for the amended theorem), at the removal scenario `rC3`:
entry 0 is empty, entry 1 is never visited, and the allocation scan reuses
slot 0. -/
theorem iteration_stops_at_empty_entry_witness :
    1 ∉ CanMap.canMapIndices rC3.map.recvMap ∧
    CanMap.allocFreeEntry rC3.map.recvMap ≠ none ∧
    (CanMap.allocFreeEntry rC3.map.recvMap).getD MAX_MESSAGES ≤ 0 :=
  iteration_stops_at_empty_entry rC3.map.recvMap 0 1 (by decide) (by decide) (by decide)

/-- Claim C8: whenever the stored trailing checksum word differs from the
checksum recomputed over the stored send table, receive table and binding
pool, `LoadFromFlash` returns 0 and leaves the runtime tables exactly as they
were (the constructor calls it on the cleared tables, so they stay empty);
nothing is copied. -/
theorem load_mismatch_leaves_tables (numFromId : Nat → Nat)
    (crc : (Nat → CANIDMAP) → (Nat → CANIDMAP) → (Nat → CANPOS) → Nat)
    (img : CanMap.FlashImage) (st : MapState)
    (h : img.storedCrc ≠ crc img.sendMap img.recvMap img.pos) :
    CanMap.LoadFromFlash numFromId crc img st = (0, st) := by
  rw [CanMap.LoadFromFlash, if_neg h]

/-- Claim C8 (witness): a mismatching image against the cleared tables leaves
them in the initialized empty state. -/
theorem load_mismatch_leaves_tables_witness :
    CanMap.LoadFromFlash (fun i => i) (fun _ _ _ => 0) imgBad CanMap.initMapState =
      (0, CanMap.initMapState) ∧
    (CanMap.initMapState.sendMap 0).first = MAX_ITEMS ∧
    (CanMap.initMapState.recvMap 0).first = MAX_ITEMS :=
  ⟨load_mismatch_leaves_tables (fun i => i) (fun _ _ _ => 0) imgBad CanMap.initMapState
      (by decide),
   by decide, by decide⟩

/-- Claim C9: while the save-in-progress flag is set, a frame on
`0x600 + nodeId` is still fully processed as an SDO request (the reply and
every state change of `ProcessSDO` happen, including table-modifying mapping
writes), whereas any other identifier is skipped outright. -/
theorem sdo_processed_while_saving (o : ParamOracle) (s : SysState) (canId d0 d1 : Nat)
    (hsv : s.isSaving = true) :
    CanMap.HandleRx o s (0x600 + s.nodeId) d0 d1 =
      (true, (CanMap.ProcessSDO o s d0 d1).1, (CanMap.ProcessSDO o s d0 d1).2) ∧
    (canId ≠ 0x600 + s.nodeId → CanMap.HandleRx o s canId d0 d1 = (false, s, [])) := by
  constructor
  · simp [CanMap.HandleRx]
  · intro hne
    simp [CanMap.HandleRx, hne, hsv]

/-- Claim C9 (witness): with the busy flag set, a mapping-configuration write
(index 0x4201, sub-index 2) received on the SDO identifier installs a receive
binding for identifier 0x201 and registers it, while a mapped frame on another
identifier is skipped. -/
theorem sdo_processed_while_saving_witness :
    CanMap.HandleRx oT sBusy (0x600 + sBusy.nodeId) dC9a dC9b =
      (true, (CanMap.ProcessSDO oT sBusy dC9a dC9b).1, (CanMap.ProcessSDO oT sBusy dC9a dC9b).2) ∧
    CanMap.HandleRx oT sBusy 0x123 dC9a dC9b = (false, sBusy, []) ∧
    ((CanMap.ProcessSDO oT sBusy dC9a dC9b).1.map.recvMap 0).first = 0 ∧
    ((CanMap.ProcessSDO oT sBusy dC9a dC9b).1.map.pos 0).mapParam = 2 ∧
    (CanMap.ProcessSDO oT sBusy dC9a dC9b).1.hw.userIds = [0x201] :=
  ⟨(sdo_processed_while_saving oT sBusy 0x123 dC9a dC9b (by decide)).1,
   (sdo_processed_while_saving oT sBusy 0x123 dC9a dC9b (by decide)).2 (by decide),
   by decide, by decide, by decide⟩

/-- Claim C10: `AddRecv` calls `RegisterUserMessage(canId)` unconditionally
after the underlying `Add`, so even when the add fails with an error code the
hardware user-message state is the registration's result. -/
theorem addRecv_registers_even_on_failure (s : SysState) (param canId ofs len : Nat)
    (gain : Rat) (off : Int)
    (hfail : (CanMap.AddRecvSys s param canId ofs len gain off).1 < 0) :
    (CanMap.AddRecvSys s param canId ofs len gain off).2.hw =
      (CanHardware.RegisterUserMessage s.hw canId).2 := rfl

/-- Claim C10 (witness): an `AddRecv` with bit offset 64 fails, yet the
identifier 0x300 ends up registered in the dispatcher's list. -/
theorem addRecv_registers_even_on_failure_witness :
    (CanMap.AddRecvSys (CanMap.initSys pZero) 3 0x300 64 8 1 0).1 < 0 ∧
    (CanMap.AddRecvSys (CanMap.initSys pZero) 3 0x300 64 8 1 0).2.hw =
      (CanHardware.RegisterUserMessage (CanMap.initSys pZero).hw 0x300).2 ∧
    (CanMap.AddRecvSys (CanMap.initSys pZero) 3 0x300 64 8 1 0).2.hw.userIds = [0x300] :=
  ⟨by decide,
   addRecv_registers_even_on_failure (CanMap.initSys pZero) 3 0x300 64 8 1 0 (by decide),
   by decide⟩

/-- Claim C4 (counterexample): with one send binding for parameter 2 (stored
value 5, gain 2, offset 3, width 8, bit offset 0) the sweep emits low word 13
— the source multiplies by the gain before adding the offset — while the
claimed add-offset-then-multiply formula yields 16. -/
theorem pack_scaling_order_cex :
    CanMap.SendAll sC4.params false sC4.map.sendMap sC4.map.pos = [(0x100, 13, 0)] ∧
    claimedFieldVal sC4.params (sC4.map.pos 0) = 16 ∧
    amendedFieldVal sC4.params (sC4.map.pos 0) = 13 := by
  have hb : sC4.map.pos 0 = bC4 := by decide
  have hpar : sC4.params = pC4 := rfl
  have hA : amendedFieldVal pC4 bC4 = 13 := by
    unfold amendedFieldVal
    rw [show pC4 bC4.mapParam * bC4.gain + (bC4.offset : Rat) = 13 from by
      norm_num [pC4, bC4]]
    decide
  have hC : claimedFieldVal pC4 bC4 = 16 := by
    unfold claimedFieldVal
    rw [show (pC4 bC4.mapParam + (bC4.offset : Rat)) * bC4.gain = 16 from by
      norm_num [pC4, bC4]]
    decide
  have hframe : CanMap.SendAll sC4.params false sC4.map.sendMap sC4.map.pos =
      [(0x100, orField (0, 0) bC4 (amendedFieldVal pC4 bC4))] := by
    rw [CanMap.SendAll_eq_amendedPackFrame]
    rfl
  refine ⟨?_, ?_, ?_⟩
  · rw [hframe, hA]
    decide
  · rw [hb, hpar]
    exact hC
  · rw [hb, hpar]
    exact hA

/-- Claim C4 (amended): every frame emitted by the periodic send sweep is
obtained by folding, over the entry's chain, the field computation that reads
the parameter as a float, multiplies by the binding's `gain`, then adds its
`offset`, truncates the result to an integer, masks it to `numBits` bits, and
ORs it into the word selected by `offsetBits` (high word at 32 or more, low
word otherwise). -/
theorem sendAll_packs_gain_then_offset (params : Nat → Rat) (m : Nat → CANIDMAP)
    (pos : Nat → CANPOS) :
    CanMap.SendAll params false m pos =
      (CanMap.canMapIndices m).map (fun e =>
        ((m e).canId, amendedPackFrame params ((CanMap.chainIdx pos ((m e).first)).map pos))) :=
  CanMap.SendAll_eq_amendedPackFrame params m pos

/-- Claim C5: `Add` rejects identifiers above `0x1FFFFFFF`, bit offsets above
63 and bit widths above 32 with the corresponding error codes, never clamping
an over-limit value; and on every failure (the three validation failures as
well as the max-messages and max-items cases — all and only the negative
results) the observable mapping table (the entries iteration visits, their
identifiers and chains) and the whole binding pool are unchanged. -/
theorem add_rejects_and_preserves_table (m : Nat → CANIDMAP) (pos : Nat → CANPOS)
    (param canId ofs len : Nat) (gain : Rat) (off : Int) :
    (canId > 0x1fffffff →
      CanMap.Add m pos param canId ofs len gain off = (CAN_ERR_INVALID_ID, m, pos)) ∧
    (canId ≤ 0x1fffffff → ofs > 63 →
      CanMap.Add m pos param canId ofs len gain off = (CAN_ERR_INVALID_OFS, m, pos)) ∧
    (canId ≤ 0x1fffffff → ofs ≤ 63 → len > 32 →
      CanMap.Add m pos param canId ofs len gain off = (CAN_ERR_INVALID_LEN, m, pos)) ∧
    ((CanMap.Add m pos param canId ofs len gain off).1 < 0 →
      CanMap.observeMap (CanMap.Add m pos param canId ofs len gain off).2.1
          (CanMap.Add m pos param canId ofs len gain off).2.2 =
        CanMap.observeMap m pos ∧
      (CanMap.Add m pos param canId ofs len gain off).2.2 = pos) := by
  refine ⟨?_, ?_, ?_, ?_⟩
  · intro h
    simp only [CanMap.Add]
    rw [if_pos h]
  · intro h1 h2
    simp only [CanMap.Add]
    rw [if_neg (by omega), if_pos h2]
  · intro h1 h2 h3
    simp only [CanMap.Add]
    rw [if_neg (by omega), if_neg (by omega), if_pos h3]
  · intro hneg
    by_cases hid : canId > 0x1fffffff
    · rw [show CanMap.Add m pos param canId ofs len gain off = (CAN_ERR_INVALID_ID, m, pos)
        from by simp only [CanMap.Add]; rw [if_pos hid]]
      exact ⟨rfl, rfl⟩
    by_cases hofs : ofs > 63
    · rw [show CanMap.Add m pos param canId ofs len gain off = (CAN_ERR_INVALID_OFS, m, pos)
        from by simp only [CanMap.Add]; rw [if_neg hid, if_pos hofs]]
      exact ⟨rfl, rfl⟩
    by_cases hlen : len > 32
    · rw [show CanMap.Add m pos param canId ofs len gain off = (CAN_ERR_INVALID_LEN, m, pos)
        from by simp only [CanMap.Add]; rw [if_neg hid, if_neg hofs, if_pos hlen]]
      exact ⟨rfl, rfl⟩
    have hval : CanMap.Add m pos param canId ofs len gain off =
        CanMap.AddValidated m pos param canId ofs len gain off := by
      simp only [CanMap.Add]
      rw [if_neg hid, if_neg hofs, if_neg hlen]
    rw [hval] at hneg ⊢
    cases hfind : CanMap.FindById m canId with
    | some e =>
      simp only [CanMap.AddValidated, hfind] at hneg ⊢
      by_cases hfree : CanMap.freePosScan pos = MAX_ITEMS
      · rw [show CanMap.AddToEntry m pos e param ofs len gain off = (CAN_ERR_MAXITEMS, m, pos)
          from by rw [CanMap.AddToEntry, if_pos hfree]]
        exact ⟨rfl, rfl⟩
      · exfalso
        rw [CanMap.AddToEntry, if_neg hfree] at hneg
        exact absurd hneg (not_lt.mpr (CanMap.AddLink_fst_nonneg m pos e param ofs len gain off _))
    | none =>
      simp only [CanMap.AddValidated, hfind] at hneg ⊢
      cases halloc : CanMap.allocFreeEntry m with
      | none =>
        simp [halloc]
      | some i =>
        simp only [halloc] at hneg ⊢
        have hifree : (m i).first = MAX_ITEMS :=
          CanMap.allocFreeEntryAux_some_free m MAX_MESSAGES 0 i halloc
        by_cases hfree : CanMap.freePosScan pos = MAX_ITEMS
        · rw [show CanMap.AddToEntry (updFn m i { m i with canId := canId }) pos i param ofs len gain off
              = (CAN_ERR_MAXITEMS, updFn m i { m i with canId := canId }, pos)
            from by rw [CanMap.AddToEntry, if_pos hfree]]
          exact ⟨CanMap.observeMap_updFn_free_entry m pos i _ hifree hifree, rfl⟩
        · exfalso
          rw [CanMap.AddToEntry, if_neg hfree] at hneg
          exact absurd hneg (not_lt.mpr (CanMap.AddLink_fst_nonneg _ pos i param ofs len gain off _))

/-- Claim C5 (witness): an identifier above the 29-bit range is rejected with
the invalid-id code and the empty table is returned unchanged. -/
theorem add_rejects_and_preserves_table_witness :
    CanMap.Add CanMap.ClearedIdMap CanMap.ClearedPos 1 0x20000000 0 8 1 0 =
      (CAN_ERR_INVALID_ID, CanMap.ClearedIdMap, CanMap.ClearedPos) :=
  (add_rejects_and_preserves_table CanMap.ClearedIdMap CanMap.ClearedPos 1 0x20000000 0 8 1 0).1
    (by decide)

/-- Claim C6: from an empty table, `AddRecv(P = 3, id 0x201, bit offset 0,
width 8, gain 1)` followed by a frame on 0x201 with low word `0xAB` sets
parameter 3 to 171 (unsigned field from the low word, offset added, gain
multiplied); after `Remove(3)` the same frame is no longer handled and
parameter 3 keeps its value 171. -/
theorem recv_scenario_0x201 :
    (CanMap.HandleRx oT sC6 0x201 0xAB 0).1 = true ∧
    sC6r.params 3 = 171 ∧
    (CanMap.HandleRx oT sC6b 0x201 0xAB 0).1 = false ∧
    (CanMap.HandleRx oT sC6b 0x201 0xAB 0).2.1.params 3 = sC6b.params 3 ∧
    sC6b.params 3 = 171 := by
  have hval : CanMap.unpackVal bC6 0xAB 0 = 171 := by
    norm_num [CanMap.unpackVal, bC6]
    norm_num [show (171 &&& 255 : Nat) = 171 from by decide]
  refine ⟨by decide, ?_, by decide, rfl, ?_⟩
  · rw [show sC6r.params 3 = CanMap.unpackVal bC6 0xAB 0 from rfl, hval]
  · rw [show sC6b.params 3 = CanMap.unpackVal bC6 0xAB 0 from rfl, hval]

/-- Claim C7: an SDO request (identifier `0x600 + nodeId`) is claimed by the
handler and answered by exactly one reply frame on `0x580 + nodeId` within the
same call; and whenever the decoded index lies outside both recognized ranges
(`0x2000`-`0x2001` and `0x3000`-`0x47FF`), the reply carries command byte
`0x80` and abort code `0x06020000` in the data word. -/
theorem sdo_single_reply_and_invalid_index (o : ParamOracle) (s : SysState) (d0 d1 : Nat) :
    (CanMap.HandleRx o s (0x600 + s.nodeId) d0 d1).1 = true ∧
    (CanMap.HandleRx o s (0x600 + s.nodeId) d0 d1).2.2 = (CanMap.ProcessSDO o s d0 d1).2 ∧
    (CanMap.ProcessSDO o s d0 d1).2.length = 1 ∧
    ((CanMap.ProcessSDO o s d0 d1).2.headD (0, 0, 0)).1 = 0x580 + s.nodeId ∧
    ((CanMap.decodeSdo d0 d1).index < 0x2000 ∨
        (0x2001 < (CanMap.decodeSdo d0 d1).index ∧ (CanMap.decodeSdo d0 d1).index < 0x3000) ∨
        0x4800 ≤ (CanMap.decodeSdo d0 d1).index →
      ((CanMap.ProcessSDO o s d0 d1).2.headD (0, 0, 0)).2.1 % 256 = SDO_ABORT ∧
      ((CanMap.ProcessSDO o s d0 d1).2.headD (0, 0, 0)).2.2 = SDO_ERR_INVIDX) := by
  refine ⟨by simp [CanMap.HandleRx], by simp [CanMap.HandleRx], rfl, rfl, ?_⟩
  intro hout
  have h1 : ¬(0x2000 ≤ (CanMap.decodeSdo d0 d1).index ∧
      (CanMap.decodeSdo d0 d1).index ≤ 0x2001 ∧
      (CanMap.decodeSdo d0 d1).subIndex < o.paramLast) := by
    rintro ⟨ha, hb, -⟩
    rcases hout with h | ⟨h, h'⟩ | h <;> omega
  have h2 : ¬(0x3000 ≤ (CanMap.decodeSdo d0 d1).index ∧
      (CanMap.decodeSdo d0 d1).index < 0x4800 ∧
      (CanMap.decodeSdo d0 d1).subIndex < o.paramLast) := by
    rintro ⟨ha, hb, -⟩
    rcases hout with h | ⟨h, h'⟩ | h <;> omega
  have hstep : CanMap.sdoStep o s (CanMap.decodeSdo d0 d1) =
      ({ CanMap.decodeSdo d0 d1 with cmd := SDO_ABORT, data := SDO_ERR_INVIDX }, s) := by
    rw [CanMap.sdoStep, if_neg h1, if_neg h2]
  constructor
  · simp only [CanMap.ProcessSDO, List.headD, hstep, CanMap.encodeSdo]
    show (SDO_ABORT + (CanMap.decodeSdo d0 d1).index * 256 +
        (CanMap.decodeSdo d0 d1).subIndex * 16777216) % 256 = SDO_ABORT
    rw [show SDO_ABORT = 0x80 from rfl]
    omega
  · simp only [CanMap.ProcessSDO, List.headD, hstep, CanMap.encodeSdo]

/-- Claim C7 (witness): a request with index 0x5000 (outside both ranges) is
answered with the abort command and the invalid-index code. -/
theorem sdo_single_reply_and_invalid_index_witness :
    ((CanMap.ProcessSDO oT (CanMap.initSys pZero) (0x40 + 0x5000 * 256) 0).2.headD (0, 0, 0)).2.1 % 256
        = SDO_ABORT ∧
    ((CanMap.ProcessSDO oT (CanMap.initSys pZero) (0x40 + 0x5000 * 256) 0).2.headD (0, 0, 0)).2.2
        = SDO_ERR_INVIDX :=
  (sdo_single_reply_and_invalid_index oT (CanMap.initSys pZero) (0x40 + 0x5000 * 256) 0).2.2.2.2
    (by decide)
